import Mathlib

/-!
# Verification of the kappari cipher codec

Shallow embedding of the Paprika license cipher codec from
`src/roundtrip.py` (`encrypt_paprika_data`, `decrypt_paprika_data`,
`perform_round_trip_test`) and `kappari/auth.py` (`Auth._decrypt_data`,
`Auth.decrypt_license_data`).

Modelling conventions:
* Python `bytes` values are `List Nat` whose entries are below 256.
* Python `str` values are `List Nat` of Unicode code points (Python
  strings may hold lone surrogates, which `str.encode("utf-8")`
  rejects; the function `utf8Encode` of the embedding does the same).
* The external library primitives that the code calls are handled as
  follows: `base64.b64encode` / `base64.b64decode` and the UTF-8 codec
  are implemented here; `PBKDF2` and the AES-256-CBC block-cipher pass
  are abstracted as function parameters (`kdf`, `aesE`, `aesD`),
  because their innards are irrelevant to every property below — only
  the facts that CBC decryption inverts CBC encryption, preserves
  length, and yields bytes are ever used, and those appear as explicit
  hypotheses.
* Python exceptions are values of `PyExc` (an exception type together
  with its message); the `try/except` of a function body becomes a `match`
  on an `Except PyExc` value.
-/

/-- ASCII/Unicode code points of a Lean string literal; used to embed the
string literals of the Python source. -/
def strCodes (s : String) : List Nat := s.toList.map Char.toNat

/-- Exception classes that the embedded code can raise, mirroring the
Python exception types observed at each raise site. -/
inductive ExcType where
  | valueError
  | indexError
  | binasciiError
  | unicodeEncodeError
  | unicodeDecodeError
  | genericException
deriving DecidableEq

/-- A Python exception: its class and its `str(e)` message (as code points). -/
structure PyExc where
  etype : ExcType
  msg : List Nat
deriving DecidableEq

/-! ## UTF-8 codec (models Python `str.encode("utf-8")` / `bytes.decode("utf-8")`) -/

/-- UTF-8 encoding of one code point. `none` on lone surrogates and on
values above U+10FFFF, exactly where Python `str.encode("utf-8")` raises
`UnicodeEncodeError`. -/
def utf8EncodeChar (c : Nat) : Option (List Nat) :=
  if c < 0x80 then some [c]
  else if c < 0x800 then some [0xC0 + c / 64, 0x80 + c % 64]
  else if c < 0xD800 then some [0xE0 + c / 4096, 0x80 + (c / 64) % 64, 0x80 + c % 64]
  else if c < 0xE000 then none
  else if c < 0x10000 then some [0xE0 + c / 4096, 0x80 + (c / 64) % 64, 0x80 + c % 64]
  else if c < 0x110000 then
    some [0xF0 + c / 0x40000, 0x80 + (c / 4096) % 64, 0x80 + (c / 64) % 64, 0x80 + c % 64]
  else none

/-- UTF-8 encoding of a string (list of code points). -/
def utf8Encode : List Nat → Option (List Nat)
  | [] => some []
  | c :: cs =>
    match utf8EncodeChar c, utf8Encode cs with
    | some bc, some bs => some (bc ++ bs)
    | _, _ => none

/-- Strict UTF-8 decoding of one code point from the front of a byte list:
rejects bad lead/continuation bytes, overlong forms, surrogates and values
above U+10FFFF, as the strict Python `bytes.decode("utf-8")` does. -/
def utf8DecodeOne : List Nat → Option (Nat × List Nat)
  | [] => none
  | b :: rest =>
    if b < 0x80 then some (b, rest)
    else if b < 0xC0 then none
    else if b < 0xE0 then
      match rest with
      | b2 :: r2 =>
        if 0x80 ≤ b2 ∧ b2 < 0xC0 then
          let c := (b - 0xC0) * 64 + (b2 - 0x80)
          if 0x80 ≤ c then some (c, r2) else none
        else none
      | [] => none
    else if b < 0xF0 then
      match rest with
      | b2 :: b3 :: r3 =>
        if (0x80 ≤ b2 ∧ b2 < 0xC0) ∧ (0x80 ≤ b3 ∧ b3 < 0xC0) then
          let c := (b - 0xE0) * 4096 + (b2 - 0x80) * 64 + (b3 - 0x80)
          if 0x800 ≤ c ∧ ¬(0xD800 ≤ c ∧ c < 0xE000) then some (c, r3) else none
        else none
      | _ => none
    else if b < 0xF8 then
      match rest with
      | b2 :: b3 :: b4 :: r4 =>
        if (0x80 ≤ b2 ∧ b2 < 0xC0) ∧ (0x80 ≤ b3 ∧ b3 < 0xC0) ∧ (0x80 ≤ b4 ∧ b4 < 0xC0) then
          let c := (b - 0xF0) * 0x40000 + (b2 - 0x80) * 4096 + (b3 - 0x80) * 64 + (b4 - 0x80)
          if 0x10000 ≤ c ∧ c < 0x110000 then some (c, r4) else none
        else none
      | _ => none
    else none

/-- Fuel-indexed UTF-8 decoding loop; each step consumes at least one byte,
so fuel equal to the byte count suffices. -/
def utf8DecodeAux : Nat → List Nat → Option (List Nat)
  | _, [] => some []
  | 0, _ :: _ => none
  | fuel + 1, bs =>
    match utf8DecodeOne bs with
    | none => none
    | some (c, rest) =>
      match utf8DecodeAux fuel rest with
      | none => none
      | some cs => some (c :: cs)

/-- Strict UTF-8 decoding of a byte list into code points. -/
def utf8Decode (bs : List Nat) : Option (List Nat) := utf8DecodeAux bs.length bs

/-! ## Base64 (models Python `base64.b64encode` / `base64.b64decode`)

`b64decode` is modelled as standard RFC 4648 decoding (reject characters
outside the alphabet, require proper `=` padding).  The Python default
non-strict mode additionally discards some foreign characters before
decoding; no theorem below depends on the behaviour at such junk inputs —
every decode below happens either at an alphabet-only well-padded string
or at the empty string, where the two agree. -/

/-- The base64 alphabet: 6-bit value to ASCII code. -/
def b64char (n : Nat) : Nat :=
  if n < 26 then 65 + n
  else if n < 52 then 97 + (n - 26)
  else if n < 62 then 48 + (n - 52)
  else if n = 62 then 43
  else 47

/-- ASCII code back to 6-bit value; `none` outside the alphabet
(61 is the padding character `=` and is not data). -/
def b64charDec (c : Nat) : Option Nat :=
  if 65 ≤ c ∧ c ≤ 90 then some (c - 65)
  else if 97 ≤ c ∧ c ≤ 122 then some (c - 97 + 26)
  else if 48 ≤ c ∧ c ≤ 57 then some (c - 48 + 52)
  else if c = 43 then some 62
  else if c = 47 then some 63
  else none

/-- Base64 encoding of a byte list, producing ASCII codes with `=` padding. -/
def b64encode : List Nat → List Nat
  | [] => []
  | [a] => [b64char (a / 4), b64char (a % 4 * 16), 61, 61]
  | [a, b] => [b64char (a / 4), b64char (a % 4 * 16 + b / 16), b64char (b % 16 * 4), 61]
  | a :: b :: c :: rest =>
    b64char (a / 4) :: b64char (a % 4 * 16 + b / 16) ::
      b64char (b % 16 * 4 + c / 64) :: b64char (c % 64) :: b64encode rest

/-- Base64 decoding of a list of ASCII codes; `none` on malformed input. -/
def b64decode : List Nat → Option (List Nat)
  | [] => some []
  | c1 :: c2 :: c3 :: c4 :: rest =>
    match b64charDec c1, b64charDec c2 with
    | some a, some b =>
      if c3 = 61 then
        if c4 = 61 ∧ rest = [] then some [a * 4 + b / 16] else none
      else
        match b64charDec c3 with
        | some c =>
          if c4 = 61 then
            if rest = [] then some [a * 4 + b / 16, b % 16 * 16 + c / 4] else none
          else
            match b64charDec c4 with
            | some d =>
              match b64decode rest with
              | some tail =>
                some ((a * 4 + b / 16) :: (b % 16 * 16 + c / 4) :: (c % 4 * 64 + d) :: tail)
              | none => none
            | none => none
        | none => none
    | _, _ => none
  | _ => none

/-! ## The cipher codec (embedding of `src/roundtrip.py` and `kappari/auth.py`)

`kdf` abstracts `PBKDF2(password_bytes, salt, dkLen=48, count=1000,
hmac_hash_module=SHA1)` — a pure function of password bytes and salt
(the fixed iteration count and output length are baked into the call the
source makes, so they do not appear as arguments).  `aesE`/`aesD`
abstract `AES.new(key, AES.MODE_CBC, iv).encrypt` / `.decrypt` on
block-aligned input.  The one library-level check that matters to the
control flow — CBC raising `ValueError` when the data is not a multiple
of 16 bytes — is modelled explicitly at the call site. -/

/-- Message of the `ValueError` raised by `encrypt_paprika_data` for a salt
whose length is not 32. -/
def saltLenMsg (n : Nat) : List Nat :=
  strCodes "Salt must be exactly 32 bytes, got " ++ strCodes (Nat.repr n)

/-- Representative message of a `binascii.Error` from `base64.b64decode`. -/
def b64ErrMsg : List Nat := strCodes "Invalid base64-encoded string"

/-- Representative message of a `UnicodeEncodeError` from `str.encode`. -/
def utf8EncodeErrMsg : List Nat := strCodes "surrogates not allowed"

/-- Representative message of a `UnicodeDecodeError` from `bytes.decode`. -/
def utf8DecodeErrMsg : List Nat := strCodes "invalid continuation byte"

/-- Message of the `ValueError` raised inside the CBC cipher when the data
length is not a multiple of the block size. -/
def cbcLenMsg : List Nat := strCodes "Data must be padded to 16 byte boundary in CBC mode"

/-- Message of the `IndexError` raised by `decrypted_padded[-1]` on empty input. -/
def indexErrMsg : List Nat := strCodes "index out of range"

/-- Message of the `ValueError` raised at `roundtrip.py` line 184. -/
def paddingErrMsg : List Nat := strCodes "Invalid PKCS#7 padding"

/-- PKCS#7 padding as written in `encrypt_paprika_data` (lines 103–108):
`padding_length = 16 - len % 16`, then that many bytes each equal to
`padding_length` are appended — note the padding is never empty. -/
def pkcs7Pad (plaintext_bytes : List Nat) : List Nat :=
  let padding_length := 16 - plaintext_bytes.length % 16
  plaintext_bytes ++ List.replicate padding_length padding_length

/-- Python negative slice `l[-p:]` for `p ≥ 1`: the last `p` elements
(the whole list when `p` exceeds the length). -/
def pySliceLast (p : Nat) (l : List Nat) : List Nat := l.drop (l.length - p)

/-- Python slice `l[:-p]` for `p ≥ 1`: everything but the last `p`
elements (empty when `p` exceeds the length). -/
def pyDropLast (p : Nat) (l : List Nat) : List Nat := l.take (l.length - p)

/-- Body of `encrypt_paprika_data` (`src/roundtrip.py` lines 81–120) after
the salt has been resolved.  Mirrors the source order: key derivation (the
password is UTF-8 encoded as the first argument of the `PBKDF2` call),
plaintext encoding, padding, cipher, Base64.  In `encrypt_paprika_data`
below, `rand` models the output of `get_random_bytes(32)`, consulted only
when no salt is supplied. -/
def encrypt_body (kdf : List Nat → List Nat → List Nat)
    (aesE : List Nat → List Nat → List Nat → List Nat)
    (salt plaintext password : List Nat) : Except PyExc (List Nat × List Nat) :=
  match utf8Encode password with
  | none => .error ⟨.unicodeEncodeError, utf8EncodeErrMsg⟩
  | some pw_bytes =>
    let key_iv := kdf pw_bytes salt
    let key := key_iv.take 32
    let iv := (key_iv.drop 32).take 16
    match utf8Encode plaintext with
    | none => .error ⟨.unicodeEncodeError, utf8EncodeErrMsg⟩
    | some plaintext_bytes =>
      let padded_plaintext := pkcs7Pad plaintext_bytes
      let ciphertext := aesE key iv padded_plaintext
      let encrypted_data := salt ++ ciphertext
      .ok (b64encode encrypted_data, salt)

/-- Salt resolution of `encrypt_paprika_data` (lines 75–79): use the
supplied salt after checking its length is exactly 32 (raising
`ValueError` otherwise), or the 32 random bytes when none is supplied. -/
def encrypt_paprika_data (kdf : List Nat → List Nat → List Nat)
    (aesE : List Nat → List Nat → List Nat → List Nat)
    (rand : List Nat) (plaintext password : List Nat)
    (saltOpt : Option (List Nat)) : Except PyExc (List Nat × List Nat) :=
  match saltOpt with
  | none => encrypt_body kdf aesE rand plaintext password
  | some s =>
    if s.length = 32 then encrypt_body kdf aesE s plaintext password
    else .error ⟨.valueError, saltLenMsg s.length⟩

/-- Embedding of `decrypt_paprika_data` lines 172–184: inspect the last
byte as the padding length, validate, strip, UTF-8 decode. -/
def stripPadAndDecode (decrypted_padded : List Nat) : Except PyExc (List Nat) :=
  match decrypted_padded.getLast? with
  | none => .error ⟨.indexError, indexErrMsg⟩
  | some padding_len =>
    if 1 ≤ padding_len ∧ padding_len ≤ 16 then
      if (pySliceLast padding_len decrypted_padded).all (fun b => b == padding_len) then
        match utf8Decode (pyDropLast padding_len decrypted_padded) with
        | some plaintext => .ok plaintext
        | none => .error ⟨.unicodeDecodeError, utf8DecodeErrMsg⟩
      else .error ⟨.valueError, paddingErrMsg⟩
    else .error ⟨.valueError, paddingErrMsg⟩

/-- Body of the `try` block of `decrypt_paprika_data` (`src/roundtrip.py`
lines 146–184): Base64 decode, split salt and ciphertext by plain slicing
(no length validation of its own), derive key and IV, CBC decrypt (the
library raises `ValueError` when the ciphertext is not block-aligned),
then strip padding and decode. -/
def decrypt_inner (kdf : List Nat → List Nat → List Nat)
    (aesD : List Nat → List Nat → List Nat → List Nat)
    (encrypted_b64 password : List Nat) : Except PyExc (List Nat × List Nat) :=
  match b64decode encrypted_b64 with
  | none => .error ⟨.binasciiError, b64ErrMsg⟩
  | some encrypted_data =>
    let salt := encrypted_data.take 32
    let ciphertext := encrypted_data.drop 32
    match utf8Encode password with
    | none => .error ⟨.unicodeEncodeError, utf8EncodeErrMsg⟩
    | some pw_bytes =>
      let key_iv := kdf pw_bytes salt
      let key := key_iv.take 32
      let iv := (key_iv.drop 32).take 16
      if ciphertext.length % 16 = 0 then
        let decrypted_padded := aesD key iv ciphertext
        match stripPadAndDecode decrypted_padded with
        | .ok plaintext => .ok (plaintext, salt)
        | .error e => .error e
      else .error ⟨.valueError, cbcLenMsg⟩

/-- Embedding of `decrypt_paprika_data` (`src/roundtrip.py` lines 123–187):
the whole body runs inside `try`, and the `except` clause re-raises every
failure as a generic `Exception` whose message is
`"Decryption failed: " + str(e)`. -/
def decrypt_paprika_data (kdf : List Nat → List Nat → List Nat)
    (aesD : List Nat → List Nat → List Nat → List Nat)
    (encrypted_b64 password : List Nat) : Except PyExc (List Nat × List Nat) :=
  match decrypt_inner kdf aesD encrypted_b64 password with
  | .ok r => .ok r
  | .error e => .error ⟨.genericException, strCodes "Decryption failed: " ++ e.msg⟩

/-- Embedding of `Auth._decrypt_data` (`kappari/auth.py` lines 82–122): the
same pipeline, but total — invalid padding is a plain
`return "Decryption failed: Invalid padding"`, and the `except` clause
turns any exception into the string `"Decryption failed: " + str(e)`.
Success returns the bare plaintext. -/
def auth_decrypt_data (kdf : List Nat → List Nat → List Nat)
    (aesD : List Nat → List Nat → List Nat → List Nat)
    (encrypted_b64 password : List Nat) : List Nat :=
  match b64decode encrypted_b64 with
  | none => strCodes "Decryption failed: " ++ b64ErrMsg
  | some encrypted_data =>
    let salt := encrypted_data.take 32
    let ciphertext := encrypted_data.drop 32
    match utf8Encode password with
    | none => strCodes "Decryption failed: " ++ utf8EncodeErrMsg
    | some pw_bytes =>
      let key_iv := kdf pw_bytes salt
      let key := key_iv.take 32
      let iv := (key_iv.drop 32).take 16
      if ciphertext.length % 16 = 0 then
        let decrypted_padded := aesD key iv ciphertext
        match decrypted_padded.getLast? with
        | none => strCodes "Decryption failed: " ++ indexErrMsg
        | some padding_len =>
          if 1 ≤ padding_len ∧ padding_len ≤ 16 then
            if (pySliceLast padding_len decrypted_padded).all (fun b => b == padding_len) then
              match utf8Decode (pyDropLast padding_len decrypted_padded) with
              | some plaintext => plaintext
              | none => strCodes "Decryption failed: " ++ utf8DecodeErrMsg
            else strCodes "Decryption failed: Invalid padding"
          else strCodes "Decryption failed: Invalid padding"
      else strCodes "Decryption failed: " ++ cbcLenMsg

/-- The discrimination `Auth.decrypt_license_data` applies to the result of
`Auth._decrypt_data` (`kappari/auth.py` line 52):
`result.startswith("Decryption failed")`. -/
def licenseResultFlaggedAsFailure (r : List Nat) : Bool :=
  (strCodes "Decryption failed").isPrefixOf r

/-- Embedding of `perform_round_trip_test` (`src/roundtrip.py` lines
225–381) after the database read: the two Base64 fields and the two
password constants are its inputs.  `jsonLoadsOk d` models whether the
`json.loads(decrypted_data)` call and the subsequent logging lines inside
the same `try` block complete without raising.  Each `try/except` that
returns `False` becomes a `match` arm; `get_random_bytes` is never
consulted (a salt is always supplied to the re-encryptions), so the
`rand` argument is `[]`.  The final result is the conjunction
`data_matches and signature_matches` of the two exact string
comparisons. -/
def perform_round_trip_test (kdf : List Nat → List Nat → List Nat)
    (aesE aesD : List Nat → List Nat → List Nat → List Nat)
    (jsonLoadsOk : List Nat → Bool)
    (encrypted_data_original encrypted_signature_original : List Nat)
    (purchase_data_key purchase_signature_key : List Nat) : Bool :=
  match decrypt_paprika_data kdf aesD encrypted_data_original purchase_data_key with
  | .error _ => false
  | .ok (decrypted_data, data_salt) =>
    if jsonLoadsOk decrypted_data then
      match decrypt_paprika_data kdf aesD encrypted_signature_original
          purchase_signature_key with
      | .error _ => false
      | .ok (decrypted_signature, sig_salt) =>
        match encrypt_paprika_data kdf aesE [] decrypted_data purchase_data_key
            (some data_salt) with
        | .error _ => false
        | .ok (re_encrypted_data, _) =>
          match encrypt_paprika_data kdf aesE [] decrypted_signature
              purchase_signature_key (some sig_salt) with
          | .error _ => false
          | .ok (re_encrypted_signature, _) =>
            (encrypted_data_original == re_encrypted_data) &&
              (encrypted_signature_original == re_encrypted_signature)
    else false

/-! ## UTF-8 codec lemmas -/

/-- A successfully encoded code point yields at least one byte. -/
theorem utf8EncodeChar_ne_nil {c : Nat} {bc : List Nat}
    (h : utf8EncodeChar c = some bc) : bc ≠ [] := by
  unfold utf8EncodeChar at h
  split_ifs at h
  all_goals cases h
  all_goals simp

/-- UTF-8 encoded bytes are bytes. -/
theorem utf8EncodeChar_lt256 {c : Nat} {bc : List Nat}
    (h : utf8EncodeChar c = some bc) : ∀ b ∈ bc, b < 256 := by
  unfold utf8EncodeChar at h
  split_ifs at h with h1 h2 h3 h4 h5 h6
  all_goals try cases h
  · intro b hb; fin_cases hb; omega
  · intro b hb; fin_cases hb <;> omega
  · intro b hb; fin_cases hb <;> omega
  · intro b hb; fin_cases hb <;> omega
  · intro b hb; fin_cases hb <;> omega

/-- Decoding inverts the encoding of one code point, whatever bytes follow. -/
theorem utf8DecodeOne_encodeChar {c : Nat} {bc : List Nat}
    (h : utf8EncodeChar c = some bc) (tl : List Nat) :
    utf8DecodeOne (bc ++ tl) = some (c, tl) := by
  unfold utf8EncodeChar at h
  split_ifs at h with h1 h2 h3 h4 h5 h6
  all_goals try cases h
  · -- one byte
    simp only [List.cons_append, List.nil_append, utf8DecodeOne]
    rw [if_pos h1]
  · -- two bytes
    simp only [List.cons_append, List.nil_append, utf8DecodeOne]
    rw [if_neg (by omega), if_neg (by omega), if_pos (by omega)]
    rw [if_pos (by omega), if_pos (by omega)]
    simp only [Option.some.injEq, Prod.mk.injEq]
    exact ⟨by omega, trivial⟩
  · -- three bytes, below the surrogate range
    simp only [List.cons_append, List.nil_append, utf8DecodeOne]
    rw [if_neg (by omega), if_neg (by omega), if_neg (by omega), if_pos (by omega)]
    rw [if_pos (by omega), if_pos (by omega)]
    simp only [Option.some.injEq, Prod.mk.injEq]
    exact ⟨by omega, trivial⟩
  · -- three bytes, above the surrogate range
    simp only [List.cons_append, List.nil_append, utf8DecodeOne]
    rw [if_neg (by omega), if_neg (by omega), if_neg (by omega), if_pos (by omega)]
    rw [if_pos (by omega), if_pos (by omega)]
    simp only [Option.some.injEq, Prod.mk.injEq]
    exact ⟨by omega, trivial⟩
  · -- four bytes
    simp only [List.cons_append, List.nil_append, utf8DecodeOne]
    rw [if_neg (by omega), if_neg (by omega), if_neg (by omega), if_neg (by omega),
      if_pos (by omega)]
    rw [if_pos (by omega), if_pos (by omega)]
    simp only [Option.some.injEq, Prod.mk.injEq]
    exact ⟨by omega, trivial⟩

/-- UTF-8 encoding of a whole string yields bytes. -/
theorem utf8Encode_lt256 {s bs : List Nat} (h : utf8Encode s = some bs) :
    ∀ b ∈ bs, b < 256 := by
  induction s generalizing bs with
  | nil =>
    simp only [utf8Encode, Option.some.injEq] at h
    subst h; intro b hb; cases hb
  | cons c cs ih =>
    simp only [utf8Encode] at h
    cases hc : utf8EncodeChar c with
    | none => rw [hc] at h; simp at h
    | some bc =>
      cases hcs : utf8Encode cs with
      | none => rw [hc, hcs] at h; simp at h
      | some brest =>
        rw [hc, hcs] at h
        simp only [Option.some.injEq] at h
        subst h
        intro b hb
        rcases List.mem_append.mp hb with hb | hb
        · exact utf8EncodeChar_lt256 hc b hb
        · exact ih hcs b hb

/-- The fuel-indexed decoding loop inverts encoding whenever the fuel covers
the byte count. -/
theorem utf8DecodeAux_encode {s bs : List Nat} (h : utf8Encode s = some bs) :
    ∀ fuel, bs.length ≤ fuel → utf8DecodeAux fuel bs = some s := by
  induction s generalizing bs with
  | nil =>
    simp only [utf8Encode, Option.some.injEq] at h
    subst h
    intro fuel _
    cases fuel <;> simp [utf8DecodeAux]
  | cons c cs ih =>
    simp only [utf8Encode] at h
    cases hc : utf8EncodeChar c with
    | none => rw [hc] at h; simp at h
    | some bc =>
      cases hcs : utf8Encode cs with
      | none => rw [hc, hcs] at h; simp at h
      | some brest =>
        rw [hc, hcs] at h
        simp only [Option.some.injEq] at h
        subst h
        intro fuel hf
        cases hbc : bc with
        | nil => exact absurd hbc (utf8EncodeChar_ne_nil hc)
        | cons b0 bt =>
          subst hbc
          cases fuel with
          | zero => simp at hf
          | succ f =>
            have hdec := utf8DecodeOne_encodeChar hc brest
            simp only [List.cons_append] at hdec ⊢
            simp only [utf8DecodeAux, hdec]
            have hlen : brest.length ≤ f := by
              simp only [List.length_cons, List.length_append] at hf; omega
            rw [ih hcs f hlen]

/-- Strict UTF-8 decoding inverts UTF-8 encoding. -/
theorem utf8Decode_encode {s bs : List Nat} (h : utf8Encode s = some bs) :
    utf8Decode bs = some s :=
  utf8DecodeAux_encode h bs.length le_rfl

/-! ## Base64 lemmas -/

/-- No alphabet character is the padding character `=`. -/
theorem b64char_ne_61 (n : Nat) : b64char n ≠ 61 := by
  unfold b64char
  split_ifs <;> omega

/-- Decoding inverts the alphabet map on 6-bit values. -/
theorem b64charDec_b64char : ∀ n < 64, b64charDec (b64char n) = some n := by decide

/-- Base64 decoding inverts Base64 encoding on byte lists. -/
theorem b64decode_encode : ∀ bs : List Nat, (∀ b ∈ bs, b < 256) →
    b64decode (b64encode bs) = some bs
  | [], _ => rfl
  | [a], h => by
    have ha : a < 256 := h a (by simp)
    have h1 : b64charDec (b64char (a / 4)) = some (a / 4) := b64charDec_b64char _ (by omega)
    have h2 : b64charDec (b64char (a % 4 * 16)) = some (a % 4 * 16) :=
      b64charDec_b64char _ (by omega)
    simp only [b64encode, b64decode, h1, h2, if_true, and_self, Option.some.injEq,
      List.cons.injEq, and_true]
    omega
  | [a, b], h => by
    have ha : a < 256 := h a (by simp)
    have hb : b < 256 := h b (by simp)
    have h1 : b64charDec (b64char (a / 4)) = some (a / 4) := b64charDec_b64char _ (by omega)
    have h2 : b64charDec (b64char (a % 4 * 16 + b / 16)) = some (a % 4 * 16 + b / 16) :=
      b64charDec_b64char _ (by omega)
    have h3 : b64charDec (b64char (b % 16 * 4)) = some (b % 16 * 4) :=
      b64charDec_b64char _ (by omega)
    have hne : ¬ b64char (b % 16 * 4) = 61 := b64char_ne_61 _
    simp only [b64encode, b64decode, h1, h2, h3, hne, if_true, if_false, ite_false,
      Option.some.injEq, List.cons.injEq, and_true]
    exact ⟨by omega, by omega⟩
  | a :: b :: c :: rest, h => by
    have ha : a < 256 := h a (by simp)
    have hb : b < 256 := h b (by simp)
    have hc : c < 256 := h c (by simp)
    have ih := b64decode_encode rest (fun x hx => h x (by simp [hx]))
    have h1 : b64charDec (b64char (a / 4)) = some (a / 4) := b64charDec_b64char _ (by omega)
    have h2 : b64charDec (b64char (a % 4 * 16 + b / 16)) = some (a % 4 * 16 + b / 16) :=
      b64charDec_b64char _ (by omega)
    have h3 : b64charDec (b64char (b % 16 * 4 + c / 64)) = some (b % 16 * 4 + c / 64) :=
      b64charDec_b64char _ (by omega)
    have h4 : b64charDec (b64char (c % 64)) = some (c % 64) := b64charDec_b64char _ (by omega)
    have hne3 : ¬ b64char (b % 16 * 4 + c / 64) = 61 := b64char_ne_61 _
    have hne4 : ¬ b64char (c % 64) = 61 := b64char_ne_61 _
    simp only [b64encode, b64decode, h1, h2, h3, h4, hne3, hne4, ih, if_false, ite_false,
      Option.some.injEq, List.cons.injEq]
    refine ⟨by omega, by omega, by omega, trivial⟩

/-! ## Padding lemmas -/

/-- The padding length chosen by `pkcs7Pad` is always between 1 and 16. -/
theorem pkcs7_padding_length_bounds (n : Nat) : 1 ≤ 16 - n % 16 ∧ 16 - n % 16 ≤ 16 := by
  omega

/-- The length of a padded byte list. -/
theorem pkcs7Pad_length (bs : List Nat) :
    (pkcs7Pad bs).length = bs.length + (16 - bs.length % 16) := by
  simp [pkcs7Pad]

/-- The last element of a nonempty replicated list is the replicated value. -/
theorem getLast?_replicate_pos {α : Type} (v : α) :
    ∀ p, 0 < p → (List.replicate p v).getLast? = some v
  | 0, h => absurd h (by omega)
  | 1, _ => rfl
  | p + 2, _ => by
    rw [List.replicate_succ, List.replicate_succ, List.getLast?_cons_cons,
      ← List.replicate_succ]
    exact getLast?_replicate_pos v (p + 1) (by omega)

/-- The last byte of a padded list is the padding length. -/
theorem pkcs7Pad_getLast? (bs : List Nat) :
    (pkcs7Pad bs).getLast? = some (16 - bs.length % 16) := by
  unfold pkcs7Pad
  have hne : List.replicate (16 - bs.length % 16) (16 - bs.length % 16) ≠ ([] : List Nat) := by
    intro hnil
    have := congrArg List.length hnil
    simp at this
    omega
  rw [List.getLast?_append_of_ne_nil _ hne, getLast?_replicate_pos _ _ (by omega)]

/-- Python slice `l[-p:]` of a padded list, `p` the padding length: the
padding block itself. -/
theorem pySliceLast_pad (bs : List Nat) :
    pySliceLast (16 - bs.length % 16) (pkcs7Pad bs) =
      List.replicate (16 - bs.length % 16) (16 - bs.length % 16) := by
  unfold pySliceLast pkcs7Pad
  have hlen : (bs ++ List.replicate (16 - bs.length % 16) (16 - bs.length % 16)).length -
      (16 - bs.length % 16) = bs.length := by
    simp
  rw [hlen, List.drop_left]

/-- Python slice `l[:-p]` of a padded list, `p` the padding length: the
original bytes. -/
theorem pyDropLast_pad (bs : List Nat) :
    pyDropLast (16 - bs.length % 16) (pkcs7Pad bs) = bs := by
  unfold pyDropLast pkcs7Pad
  have hlen : (bs ++ List.replicate (16 - bs.length % 16) (16 - bs.length % 16)).length -
      (16 - bs.length % 16) = bs.length := by
    simp
  rw [hlen, List.take_left]

/-- Every byte of the padding block passes the `all` check. -/
theorem all_replicate_beq (p : Nat) :
    (List.replicate p p).all (fun b => b == p) = true := by
  simp [List.all_eq_true, List.mem_replicate]

/-- Inversion of a successful `encrypt_body` run: the salt is echoed, both
UTF-8 encodings succeeded, and the blob is the Base64 encoding of the salt
followed by the ciphertext of the padded plaintext. -/
theorem encrypt_body_ok_elim {kdf : List Nat → List Nat → List Nat}
    {aesE : List Nat → List Nat → List Nat → List Nat}
    {salt plaintext password blob saltUsed : List Nat}
    (h : encrypt_body kdf aesE salt plaintext password = .ok (blob, saltUsed)) :
    saltUsed = salt ∧
    ∃ pw_bytes plaintext_bytes,
      utf8Encode password = some pw_bytes ∧
      utf8Encode plaintext = some plaintext_bytes ∧
      blob = b64encode (salt ++
        aesE ((kdf pw_bytes salt).take 32) (((kdf pw_bytes salt).drop 32).take 16)
          (pkcs7Pad plaintext_bytes)) := by
  unfold encrypt_body at h
  cases hpw : utf8Encode password with
  | none => rw [hpw] at h; simp at h
  | some pw_bytes =>
    rw [hpw] at h
    cases hpt : utf8Encode plaintext with
    | none => rw [hpt] at h; simp at h
    | some plaintext_bytes =>
      rw [hpt] at h
      simp only [Except.ok.injEq, Prod.mk.injEq] at h
      obtain ⟨hblob, hsalt⟩ := h
      exact ⟨hsalt.symm, pw_bytes, plaintext_bytes, rfl, rfl, hblob.symm⟩

/-- Padded plaintext bytes are bytes (padding values are at most 16). -/
theorem pkcs7Pad_lt256 {bs : List Nat} (h : ∀ b ∈ bs, b < 256) :
    ∀ b ∈ pkcs7Pad bs, b < 256 := by
  intro b hb
  unfold pkcs7Pad at hb
  rcases List.mem_append.mp hb with hb | hb
  · exact h b hb
  · have := List.eq_of_mem_replicate hb; omega

/-- The padding-strip-and-decode stage inverts padding followed by UTF-8
encoding. -/
theorem stripPadAndDecode_pad {pt bs : List Nat} (hpt : utf8Encode pt = some bs) :
    stripPadAndDecode (pkcs7Pad bs) = .ok pt := by
  have h1 : 1 ≤ 16 - bs.length % 16 := by omega
  have h2 : 16 - bs.length % 16 ≤ 16 := by omega
  unfold stripPadAndDecode
  simp only [pkcs7Pad_getLast?, pySliceLast_pad, pyDropLast_pad, all_replicate_beq,
    utf8Decode_encode hpt, h1, h2, and_self, if_true]

/-- Decryption inverts encryption at the level of `encrypt_body` and the
`try`-block body of `decrypt_paprika_data`, for a 32-byte salt, assuming
the CBC pass decrypts what it encrypted (`hinv`), preserves length
(`hlen`) and maps byte lists to byte lists (`hbyte`). -/
theorem decrypt_inner_encrypt_body
    {kdf : List Nat → List Nat → List Nat}
    {aesE aesD : List Nat → List Nat → List Nat → List Nat}
    (hinv : ∀ k iv m, aesD k iv (aesE k iv m) = m)
    (hlen : ∀ k iv m, (aesE k iv m).length = m.length)
    (hbyte : ∀ k iv m, (∀ b ∈ m, b < 256) → ∀ b ∈ aesE k iv m, b < 256)
    {salt plaintext password blob saltUsed : List Nat}
    (hsalt32 : salt.length = 32)
    (hsaltb : ∀ b ∈ salt, b < 256)
    (h : encrypt_body kdf aesE salt plaintext password = .ok (blob, saltUsed)) :
    decrypt_inner kdf aesD blob password = .ok (plaintext, salt) := by
  obtain ⟨hsu, pw_bytes, plaintext_bytes, hpw, hpt, hblob⟩ := encrypt_body_ok_elim h
  subst hblob
  have hptb : ∀ b ∈ plaintext_bytes, b < 256 := utf8Encode_lt256 hpt
  have hctb : ∀ b ∈ aesE ((kdf pw_bytes salt).take 32) (((kdf pw_bytes salt).drop 32).take 16)
      (pkcs7Pad plaintext_bytes), b < 256 :=
    hbyte _ _ _ (pkcs7Pad_lt256 hptb)
  have hallb : ∀ b ∈ salt ++ aesE ((kdf pw_bytes salt).take 32)
      (((kdf pw_bytes salt).drop 32).take 16) (pkcs7Pad plaintext_bytes), b < 256 := by
    intro b hb
    rcases List.mem_append.mp hb with hb | hb
    · exact hsaltb b hb
    · exact hctb b hb
  have hdec := b64decode_encode _ hallb
  have htake : ∀ tl : List Nat, (salt ++ tl).take 32 = salt := by
    intro tl; rw [← hsalt32]; exact List.take_left _ _
  have hdrop : ∀ tl : List Nat, (salt ++ tl).drop 32 = tl := by
    intro tl; rw [← hsalt32]; exact List.drop_left _ _
  have hct16 : (aesE ((kdf pw_bytes salt).take 32) (((kdf pw_bytes salt).drop 32).take 16)
      (pkcs7Pad plaintext_bytes)).length % 16 = 0 := by
    rw [hlen, pkcs7Pad_length]; omega
  unfold decrypt_inner
  rw [hdec]
  simp only [htake, hdrop, hpw]
  rw [if_pos hct16, hinv, stripPadAndDecode_pad hpt]

/-! ## Concrete instances for the closed witness theorems

The abstract cipher hypotheses are instantiated with the identity cipher
(which trivially decrypts what it encrypts, preserves length and maps byte
lists to byte lists) and a constant key-derivation function; the inputs are
the literal example of the spec (§8.6): plaintext `"test data"`, password
`"test password"`, salt of 32 ASCII zero-digit bytes (0x30). -/

/-- Constant stand-in for the key-derivation function in witnesses. -/
def wKdf : List Nat → List Nat → List Nat := fun _ _ => List.replicate 48 7

/-- Identity stand-in for the CBC cipher pass in witnesses. -/
def wAes : List Nat → List Nat → List Nat → List Nat := fun _ _ m => m

/-- The 32-byte salt `b"0" * 32` of the spec example. -/
def wSalt : List Nat := List.replicate 32 48

/-- The plaintext `"test data"` of the spec example. -/
def wPlain : List Nat := strCodes "test data"

/-- The password `"test password"` of the spec example. -/
def wPw : List Nat := strCodes "test password"

/-- The blob produced by encrypting the spec example under the witness
instances. -/
def wBlob : List Nat :=
  match encrypt_paprika_data wKdf wAes [] wPlain wPw (some wSalt) with
  | .ok (b, _) => b
  | .error _ => []

/-- C1: Round-trip identity — whenever `encrypt_paprika_data` succeeds on
plaintext `P`, password `W` and any salt (generated, in which case
`get_random_bytes` yields 32 bytes, or supplied), decrypting the returned
blob with the same password succeeds and returns exactly `P` (and the salt
that was used), given that the CBC pass decrypts what it encrypted,
preserves length, and maps byte lists to byte lists. -/
theorem roundtrip_identity
    (kdf : List Nat → List Nat → List Nat)
    (aesE aesD : List Nat → List Nat → List Nat → List Nat)
    (hinv : ∀ k iv m, aesD k iv (aesE k iv m) = m)
    (hlen : ∀ k iv m, (aesE k iv m).length = m.length)
    (hbyte : ∀ k iv m, (∀ b ∈ m, b < 256) → ∀ b ∈ aesE k iv m, b < 256)
    (rand plaintext password : List Nat) (saltOpt : Option (List Nat))
    (hrand32 : saltOpt = none → rand.length = 32)
    (hrandb : ∀ b ∈ rand, b < 256)
    (hsaltb : ∀ s, saltOpt = some s → ∀ b ∈ s, b < 256)
    (blob saltUsed : List Nat)
    (henc : encrypt_paprika_data kdf aesE rand plaintext password saltOpt =
      .ok (blob, saltUsed)) :
    decrypt_paprika_data kdf aesD blob password = .ok (plaintext, saltUsed) := by
  unfold encrypt_paprika_data at henc
  cases saltOpt with
  | none =>
    have hsu := (encrypt_body_ok_elim henc).1
    subst hsu
    have h := decrypt_inner_encrypt_body hinv hlen hbyte (hrand32 rfl) hrandb henc
    unfold decrypt_paprika_data
    rw [h]
  | some s =>
    dsimp only [] at henc
    by_cases h32 : s.length = 32
    · rw [if_pos h32] at henc
      have hsu := (encrypt_body_ok_elim henc).1
      subst hsu
      have h := decrypt_inner_encrypt_body hinv hlen hbyte h32 (hsaltb _ rfl) henc
      unfold decrypt_paprika_data
      rw [h]
    · rw [if_neg h32] at henc
      simp at henc

/-- Witness for C1 at the literal example of the spec under the identity-cipher
instances. -/
theorem roundtrip_identity_witness :
    decrypt_paprika_data wKdf wAes wBlob wPw = .ok (wPlain, wSalt) := by
  have henc : encrypt_paprika_data wKdf wAes [] wPlain wPw (some wSalt) =
      .ok (wBlob, wSalt) := by rfl
  exact roundtrip_identity wKdf wAes wAes (fun _ _ _ => rfl) (fun _ _ _ => rfl)
    (fun _ _ _ h => h) [] wPlain wPw (some wSalt)
    (fun hc => by cases hc) (fun b hb => by cases hb)
    (fun s hs => by
      cases hs
      intro b hb
      have := List.eq_of_mem_replicate hb
      omega)
    wBlob wSalt henc

/-- C2: Padding is always added — the padded input handed to the block
cipher by `encrypt_body` is `pkcs7Pad` of the UTF-8 plaintext bytes, whose
length is always `n + (16 - n % 16)`; when `n` is already a multiple of 16
a full extra block of sixteen `0x10` bytes is appended, so the padded
length is `n + 16`, never `n`. -/
theorem padding_always_added (plaintext_bytes : List Nat) :
    (pkcs7Pad plaintext_bytes).length =
      plaintext_bytes.length + (16 - plaintext_bytes.length % 16) ∧
    (plaintext_bytes.length % 16 = 0 →
      (pkcs7Pad plaintext_bytes).length = plaintext_bytes.length + 16 ∧
      pkcs7Pad plaintext_bytes = plaintext_bytes ++ List.replicate 16 16) := by
  refine ⟨pkcs7Pad_length plaintext_bytes, fun h0 => ⟨?_, ?_⟩⟩
  · rw [pkcs7Pad_length]; omega
  · unfold pkcs7Pad
    rw [h0]

/-- Witness for C2 at a 32-byte (multiple of 16) input. -/
theorem padding_always_added_witness :
    (pkcs7Pad (List.replicate 32 65)).length = 32 + 16 ∧
    pkcs7Pad (List.replicate 32 65) = List.replicate 32 65 ++ List.replicate 16 16 := by
  have h := (padding_always_added (List.replicate 32 65)).2 (by decide)
  exact ⟨by simpa using h.1, h.2⟩

/-- C4: encrypt is deterministic given an explicit 32-byte salt — the
result does not depend on the random source (the only impure input), and
the salt returned by a successful call is the supplied salt itself. -/
theorem salt_determinism
    (kdf : List Nat → List Nat → List Nat)
    (aesE : List Nat → List Nat → List Nat → List Nat)
    (rand1 rand2 plaintext password s blob saltUsed : List Nat)
    (henc : encrypt_paprika_data kdf aesE rand1 plaintext password (some s) =
      .ok (blob, saltUsed)) :
    encrypt_paprika_data kdf aesE rand1 plaintext password (some s) =
      encrypt_paprika_data kdf aesE rand2 plaintext password (some s) ∧
    saltUsed = s := by
  constructor
  · rfl
  · unfold encrypt_paprika_data at henc
    dsimp only [] at henc
    by_cases h32 : s.length = 32
    · rw [if_pos h32] at henc
      exact (encrypt_body_ok_elim henc).1
    · rw [if_neg h32] at henc
      simp at henc

/-- Witness for C4 at the literal example of the spec with two different random
streams. -/
theorem salt_determinism_witness :
    encrypt_paprika_data wKdf wAes [1] wPlain wPw (some wSalt) =
      encrypt_paprika_data wKdf wAes [2, 3] wPlain wPw (some wSalt) ∧
    wSalt = wSalt := by
  exact salt_determinism wKdf wAes [1] [2, 3] wPlain wPw wSalt wBlob wSalt (by rfl)

/-- C5: Salt length enforcement — a supplied salt whose length is not 32
makes encrypt fail at once with the salt-length `ValueError`; the result is
a fixed error value that does not involve the key-derivation function, the
cipher, the password or the plaintext, so nothing further runs. -/
theorem salt_length_enforcement
    (kdf : List Nat → List Nat → List Nat)
    (aesE : List Nat → List Nat → List Nat → List Nat)
    (rand plaintext password s : List Nat)
    (h : s.length ≠ 32) :
    encrypt_paprika_data kdf aesE rand plaintext password (some s) =
      .error ⟨.valueError, saltLenMsg s.length⟩ := by
  unfold encrypt_paprika_data
  dsimp only []
  rw [if_neg h]

/-- Witness for C5 at every length in {0, 16, 31, 33, 64}. -/
theorem salt_length_enforcement_witness :
    encrypt_paprika_data wKdf wAes [] wPlain wPw (some []) =
      .error ⟨.valueError, saltLenMsg 0⟩ ∧
    encrypt_paprika_data wKdf wAes [] wPlain wPw (some (List.replicate 16 0)) =
      .error ⟨.valueError, saltLenMsg 16⟩ ∧
    encrypt_paprika_data wKdf wAes [] wPlain wPw (some (List.replicate 31 0)) =
      .error ⟨.valueError, saltLenMsg 31⟩ ∧
    encrypt_paprika_data wKdf wAes [] wPlain wPw (some (List.replicate 33 0)) =
      .error ⟨.valueError, saltLenMsg 33⟩ ∧
    encrypt_paprika_data wKdf wAes [] wPlain wPw (some (List.replicate 64 0)) =
      .error ⟨.valueError, saltLenMsg 64⟩ := by
  refine ⟨?_, ?_, ?_, ?_, ?_⟩ <;>
    first
    | exact salt_length_enforcement wKdf wAes [] wPlain wPw [] (by decide)
    | exact salt_length_enforcement wKdf wAes [] wPlain wPw (List.replicate 16 0) (by decide)
    | exact salt_length_enforcement wKdf wAes [] wPlain wPw (List.replicate 31 0) (by decide)
    | exact salt_length_enforcement wKdf wAes [] wPlain wPw (List.replicate 33 0) (by decide)
    | exact salt_length_enforcement wKdf wAes [] wPlain wPw (List.replicate 64 0) (by decide)

/-- C6: after the AES-CBC pass, the strip stage of decrypt (lines 172–187)
fails with the padding `ValueError` iff the last byte `p` is not in 1..16
or the final `p` bytes are not all `p`; with valid padding it strips
exactly the last `p` bytes (`pyDropLast p`), then fails with
`UnicodeDecodeError` iff the remainder is not valid UTF-8, otherwise
returning the decoded plaintext. -/
theorem padding_and_utf8_validation (l : List Nat) (p : Nat)
    (hlast : l.getLast? = some p) :
    (stripPadAndDecode l = .error ⟨.valueError, paddingErrMsg⟩ ↔
      ¬(1 ≤ p ∧ p ≤ 16 ∧ (pySliceLast p l).all (fun b => b == p) = true)) ∧
    ((1 ≤ p ∧ p ≤ 16 ∧ (pySliceLast p l).all (fun b => b == p) = true) →
      ((stripPadAndDecode l = .error ⟨.unicodeDecodeError, utf8DecodeErrMsg⟩ ↔
          utf8Decode (pyDropLast p l) = none) ∧
        (∀ pt, utf8Decode (pyDropLast p l) = some pt →
          stripPadAndDecode l = .ok pt))) := by
  unfold stripPadAndDecode
  rw [hlast]
  dsimp only []
  by_cases h16 : 1 ≤ p ∧ p ≤ 16
  · rw [if_pos h16]
    by_cases hall : (pySliceLast p l).all (fun b => b == p) = true
    · rw [if_pos hall]
      cases hd : utf8Decode (pyDropLast p l) with
      | none =>
        refine ⟨iff_of_false (by simp) (not_not_intro ⟨h16.1, h16.2, hall⟩),
          fun _ => ⟨iff_of_true rfl rfl, fun pt hc => Option.noConfusion hc⟩⟩
      | some pt0 =>
        refine ⟨iff_of_false (by simp) (not_not_intro ⟨h16.1, h16.2, hall⟩),
          fun _ => ⟨iff_of_false (by simp) (by simp), fun pt hc => ?_⟩⟩
        cases hc
        rfl
    · rw [if_neg hall]
      exact ⟨iff_of_true rfl (fun hB => hall hB.2.2),
        fun hB => absurd hB.2.2 hall⟩
  · rw [if_neg h16]
    exact ⟨iff_of_true rfl (fun hB => h16 ⟨hB.1, hB.2.1⟩),
      fun hB => absurd ⟨hB.1, hB.2.1⟩ h16⟩

/-- Witness for C6: the two-byte block `[97, 1]` carries one byte of valid
padding; the strip stage returns the plaintext byte `97`. -/
theorem padding_and_utf8_validation_witness :
    stripPadAndDecode [97, 1] = .ok [97] := by
  have h := padding_and_utf8_validation [97, 1] 1 (by rfl)
  exact (h.2 ⟨by decide, by decide, by decide⟩).2 [97] (by rfl)

/-- C3 counterexample: decrypting the empty string does not fail in any
pre-cipher validation — `b64decode("")` succeeds with zero bytes, no
decoded-length or ciphertext-length check fires, key derivation and the
cipher call run, and the failure is an `IndexError` at the padding
inspection (`decrypted_padded[-1]`), surfaced as the generic wrapped
exception; it is neither the Base64 failure site nor the cipher-length
`ValueError` site. -/
theorem decrypt_validation_counterexample :
    decrypt_inner wKdf wAes [] wPw = .error ⟨.indexError, indexErrMsg⟩ ∧
    decrypt_paprika_data wKdf wAes [] wPw =
      .error ⟨.genericException, strCodes "Decryption failed: " ++ indexErrMsg⟩ ∧
    (⟨ExcType.indexError, indexErrMsg⟩ : PyExc) ≠ ⟨.binasciiError, b64ErrMsg⟩ ∧
    (⟨ExcType.indexError, indexErrMsg⟩ : PyExc) ≠ ⟨.valueError, cbcLenMsg⟩ := by
  exact ⟨by rfl, by rfl, by decide, by decide⟩

/-- C3 amended: for every password whose UTF-8 encoding succeeds,
`decrypt("")` fails — but via the `IndexError` raised at padding
inspection after key derivation and the cipher pass (which maps empty
input to empty output, as the real CBC library does), wrapped in the
generic `Decryption failed` exception; there is no pre-cipher
`InvalidEncoding`/`InvalidCiphertextLength` validation. -/
theorem decrypt_empty_amended
    (kdf : List Nat → List Nat → List Nat)
    (aesD : List Nat → List Nat → List Nat → List Nat)
    (hD0 : ∀ k iv, aesD k iv [] = [])
    (password pw_bytes : List Nat)
    (hpw : utf8Encode password = some pw_bytes) :
    decrypt_paprika_data kdf aesD [] password =
      .error ⟨.genericException, strCodes "Decryption failed: " ++ indexErrMsg⟩ := by
  unfold decrypt_paprika_data decrypt_inner
  simp only [b64decode, hpw, List.take_nil, List.drop_nil, List.length_nil,
    Nat.zero_mod, if_pos, hD0, stripPadAndDecode, List.getLast?_nil]

/-- Witness for the amended claim of C3 at a concrete password. -/
theorem decrypt_empty_amended_witness :
    decrypt_paprika_data wKdf wAes [] wPw =
      .error ⟨.genericException, strCodes "Decryption failed: " ++ indexErrMsg⟩ := by
  exact decrypt_empty_amended wKdf wAes (fun _ _ => rfl) wPw wPw (by rfl)

/-- A list is a Boolean prefix of itself followed by anything. -/
theorem isPrefixOf_append_self (l t : List Nat) : l.isPrefixOf (l ++ t) = true := by
  rw [List.isPrefixOf_iff_prefix]
  exact List.prefix_append l t

/-- A 48-zero-byte blob: 32 zero salt bytes plus one all-zero cipher
block, whose identity decryption has padding byte 0 — an invalid-padding
failure for the counterexample below. -/
def wBadBlob : List Nat := b64encode (List.replicate 48 0)

/-- C7 counterexample: two decrypt failures with different root causes
(empty input failing at padding inspection with `IndexError`; an all-zero
block failing padding validation with `ValueError`) both surface as the
single generic exception kind, distinguishable only by message text; and
`Auth._decrypt_data` surfaces its failures as a plain string sentinel
beginning with `Decryption failed`, not as a raised typed error. -/
theorem named_error_kinds_counterexample :
    decrypt_paprika_data wKdf wAes [] wPw =
      .error ⟨.genericException, strCodes "Decryption failed: " ++ indexErrMsg⟩ ∧
    decrypt_paprika_data wKdf wAes wBadBlob wPw =
      .error ⟨.genericException, strCodes "Decryption failed: " ++ paddingErrMsg⟩ ∧
    auth_decrypt_data wKdf wAes [] wPw = strCodes "Decryption failed: " ++ indexErrMsg ∧
    licenseResultFlaggedAsFailure (strCodes "Decryption failed: " ++ indexErrMsg) = true := by
  exact ⟨by rfl, by rfl, by rfl, by rfl⟩

/-- C7 amended: every failure of `decrypt_paprika_data` is surfaced as the
one generic exception kind with message prefix `Decryption failed: `
(root causes are distinguishable only by the message text after the
prefix), not as five distinct named error kinds. -/
theorem named_error_kinds_amended
    (kdf : List Nat → List Nat → List Nat)
    (aesD : List Nat → List Nat → List Nat → List Nat)
    (encrypted_b64 password : List Nat) (e : PyExc)
    (h : decrypt_paprika_data kdf aesD encrypted_b64 password = .error e) :
    e.etype = .genericException ∧
    (strCodes "Decryption failed: ").isPrefixOf e.msg = true := by
  unfold decrypt_paprika_data at h
  cases hi : decrypt_inner kdf aesD encrypted_b64 password with
  | ok r => rw [hi] at h; exact absurd h (by simp)
  | error e0 =>
    rw [hi] at h
    simp only [Except.error.injEq] at h
    subst h
    exact ⟨rfl, isPrefixOf_append_self _ _⟩

/-- Witness for the amended claim of C7 at the empty-input failure. -/
theorem named_error_kinds_amended_witness :
    (⟨ExcType.genericException, strCodes "Decryption failed: " ++ indexErrMsg⟩ : PyExc).etype =
      .genericException ∧
    (strCodes "Decryption failed: ").isPrefixOf
      (⟨ExcType.genericException, strCodes "Decryption failed: " ++ indexErrMsg⟩ : PyExc).msg =
      true := by
  exact named_error_kinds_amended wKdf wAes [] wPw _ (by rfl)

/-- The `Decryption failed` sentinel check accepts every string of the form
`"Decryption failed: " ++ anything`. -/
theorem dfPrefix_flag (x : List Nat) :
    (strCodes "Decryption failed").isPrefixOf (strCodes "Decryption failed: " ++ x) = true := by
  rw [List.isPrefixOf_iff_prefix]
  have h : strCodes "Decryption failed: " =
      strCodes "Decryption failed" ++ strCodes ": " := by decide
  rw [h, List.append_assoc]
  exact List.prefix_append _ _

/-- Running `Auth._decrypt_data` on an encrypt-produced blob returns exactly the
original plaintext (the success path mirrors `decrypt_inner`). -/
theorem auth_decrypt_encrypt_body
    {kdf : List Nat → List Nat → List Nat}
    {aesE aesD : List Nat → List Nat → List Nat → List Nat}
    (hinv : ∀ k iv m, aesD k iv (aesE k iv m) = m)
    (hlen : ∀ k iv m, (aesE k iv m).length = m.length)
    (hbyte : ∀ k iv m, (∀ b ∈ m, b < 256) → ∀ b ∈ aesE k iv m, b < 256)
    {salt plaintext password blob saltUsed : List Nat}
    (hsalt32 : salt.length = 32)
    (hsaltb : ∀ b ∈ salt, b < 256)
    (h : encrypt_body kdf aesE salt plaintext password = .ok (blob, saltUsed)) :
    auth_decrypt_data kdf aesD blob password = plaintext := by
  obtain ⟨hsu, pw_bytes, plaintext_bytes, hpw, hpt, hblob⟩ := encrypt_body_ok_elim h
  subst hblob
  have hptb : ∀ b ∈ plaintext_bytes, b < 256 := utf8Encode_lt256 hpt
  have hctb : ∀ b ∈ aesE ((kdf pw_bytes salt).take 32) (((kdf pw_bytes salt).drop 32).take 16)
      (pkcs7Pad plaintext_bytes), b < 256 :=
    hbyte _ _ _ (pkcs7Pad_lt256 hptb)
  have hallb : ∀ b ∈ salt ++ aesE ((kdf pw_bytes salt).take 32)
      (((kdf pw_bytes salt).drop 32).take 16) (pkcs7Pad plaintext_bytes), b < 256 := by
    intro b hb
    rcases List.mem_append.mp hb with hb | hb
    · exact hsaltb b hb
    · exact hctb b hb
  have hdec := b64decode_encode _ hallb
  have htake : ∀ tl : List Nat, (salt ++ tl).take 32 = salt := by
    intro tl; rw [← hsalt32]; exact List.take_left _ _
  have hdrop : ∀ tl : List Nat, (salt ++ tl).drop 32 = tl := by
    intro tl; rw [← hsalt32]; exact List.drop_left _ _
  have hct16 : (aesE ((kdf pw_bytes salt).take 32) (((kdf pw_bytes salt).drop 32).take 16)
      (pkcs7Pad plaintext_bytes)).length % 16 = 0 := by
    rw [hlen, pkcs7Pad_length]; omega
  have h1 : 1 ≤ 16 - plaintext_bytes.length % 16 := by omega
  have h2 : 16 - plaintext_bytes.length % 16 ≤ 16 := by omega
  unfold auth_decrypt_data
  rw [hdec]
  simp only [htake, hdrop, hpw]
  rw [if_pos hct16, hinv]
  simp only [pkcs7Pad_getLast?, pySliceLast_pad, pyDropLast_pad, all_replicate_beq,
    utf8Decode_encode hpt, h1, h2, and_self, if_true]

/-- Every run of `Auth._decrypt_data` either returns the plaintext of a
successful decryption pipeline (the value `decrypt_inner` would accept) or
returns a string that the sentinel check of the caller flags as a failure; in
particular the function is total and never raises. -/
theorem auth_decrypt_data_cases
    (kdf : List Nat → List Nat → List Nat)
    (aesD : List Nat → List Nat → List Nat → List Nat)
    (b2 p2 : List Nat) :
    (∃ pt s, decrypt_inner kdf aesD b2 p2 = .ok (pt, s) ∧
      auth_decrypt_data kdf aesD b2 p2 = pt) ∨
    licenseResultFlaggedAsFailure (auth_decrypt_data kdf aesD b2 p2) = true := by
  unfold auth_decrypt_data decrypt_inner stripPadAndDecode licenseResultFlaggedAsFailure
  cases hb : b64decode b2 with
  | none => right; exact dfPrefix_flag _
  | some data =>
    cases hpw : utf8Encode p2 with
    | none => right; exact dfPrefix_flag _
    | some pw_bytes =>
      dsimp only []
      by_cases h16 : (data.drop 32).length % 16 = 0
      · simp only [if_pos h16]
        cases hl : (aesD ((kdf pw_bytes (data.take 32)).take 32)
            (((kdf pw_bytes (data.take 32)).drop 32).take 16) (data.drop 32)).getLast? with
        | none => right; exact dfPrefix_flag _
        | some pl =>
          by_cases hp : 1 ≤ pl ∧ pl ≤ 16
          · simp only [if_pos hp]
            by_cases hall : (pySliceLast pl (aesD ((kdf pw_bytes (data.take 32)).take 32)
                (((kdf pw_bytes (data.take 32)).drop 32).take 16) (data.drop 32))).all
                (fun b => b == pl) = true
            · simp only [if_pos hall]
              cases hd : utf8Decode (pyDropLast pl (aesD ((kdf pw_bytes (data.take 32)).take 32)
                  (((kdf pw_bytes (data.take 32)).drop 32).take 16) (data.drop 32))) with
              | none => right; exact dfPrefix_flag _
              | some pt0 => exact Or.inl ⟨pt0, data.take 32, rfl, rfl⟩
            · simp only [if_neg hall]
              right; decide
          · simp only [if_neg hp]
            right; decide
      · simp only [if_neg h16]
        right; exact dfPrefix_flag _

/-- C10: sentinel ambiguity at the auth interface — `Auth._decrypt_data`
is total (every run returns a string: either the decrypted plaintext or a
`Decryption failed`-prefixed sentinel), and its caller
`Auth.decrypt_license_data` discriminates solely by that prefix, so an
encrypted input whose true plaintext itself begins with
`Decryption failed` decrypts successfully yet is flagged as a failure. -/
theorem sentinel_ambiguity
    (kdf : List Nat → List Nat → List Nat)
    (aesE aesD : List Nat → List Nat → List Nat → List Nat)
    (hinv : ∀ k iv m, aesD k iv (aesE k iv m) = m)
    (hlen : ∀ k iv m, (aesE k iv m).length = m.length)
    (hbyte : ∀ k iv m, (∀ b ∈ m, b < 256) → ∀ b ∈ aesE k iv m, b < 256)
    (plaintext password salt blob saltUsed : List Nat)
    (hsalt32 : salt.length = 32)
    (hsaltb : ∀ b ∈ salt, b < 256)
    (hpfx : (strCodes "Decryption failed").isPrefixOf plaintext = true)
    (henc : encrypt_paprika_data kdf aesE [] plaintext password (some salt) =
      .ok (blob, saltUsed)) :
    (∀ b2 p2, (∃ pt s, decrypt_inner kdf aesD b2 p2 = .ok (pt, s) ∧
        auth_decrypt_data kdf aesD b2 p2 = pt) ∨
      licenseResultFlaggedAsFailure (auth_decrypt_data kdf aesD b2 p2) = true) ∧
    auth_decrypt_data kdf aesD blob password = plaintext ∧
    licenseResultFlaggedAsFailure (auth_decrypt_data kdf aesD blob password) = true := by
  have hb : encrypt_body kdf aesE salt plaintext password = .ok (blob, saltUsed) := by
    unfold encrypt_paprika_data at henc
    dsimp only [] at henc
    rwa [if_pos hsalt32] at henc
  have hres := auth_decrypt_encrypt_body hinv hlen hbyte hsalt32 hsaltb hb
  refine ⟨auth_decrypt_data_cases kdf aesD, hres, ?_⟩
  unfold licenseResultFlaggedAsFailure
  rw [hres]
  exact hpfx

/-- A genuine plaintext that begins with the sentinel prefix. -/
def wTrap : List Nat := strCodes "Decryption failed is the name of my band"

/-- The blob encrypting `wTrap` under the witness instances. -/
def wTrapBlob : List Nat :=
  match encrypt_paprika_data wKdf wAes [] wTrap wPw (some wSalt) with
  | .ok (b, _) => b
  | .error _ => []

/-- Witness for C10: the trap plaintext round-trips through
`Auth._decrypt_data` yet is flagged as a failure by the check of the caller. -/
theorem sentinel_ambiguity_witness :
    auth_decrypt_data wKdf wAes wTrapBlob wPw = wTrap ∧
    licenseResultFlaggedAsFailure (auth_decrypt_data wKdf wAes wTrapBlob wPw) = true := by
  have h := sentinel_ambiguity wKdf wAes wAes (fun _ _ _ => rfl) (fun _ _ _ => rfl)
    (fun _ _ _ hm => hm) wTrap wPw wSalt wTrapBlob wSalt (by rfl)
    (fun b hb => by
      have := List.eq_of_mem_replicate hb
      omega)
    (by decide) (by rfl)
  exact ⟨h.2.1, h.2.2⟩

/-- The strip stage only ever fails with one of its three own errors; in
particular never with the cipher-length `ValueError`. -/
theorem stripPadAndDecode_error_cases {l : List Nat} {e : PyExc}
    (h : stripPadAndDecode l = .error e) :
    e = ⟨.indexError, indexErrMsg⟩ ∨ e = ⟨.valueError, paddingErrMsg⟩ ∨
      e = ⟨.unicodeDecodeError, utf8DecodeErrMsg⟩ := by
  unfold stripPadAndDecode at h
  cases hl : l.getLast? with
  | none =>
    rw [hl] at h
    simp only [Except.error.injEq] at h
    exact Or.inl h.symm
  | some p =>
    rw [hl] at h
    dsimp only [] at h
    split_ifs at h with h1 h2
    · cases hd : utf8Decode (pyDropLast p l) with
      | none =>
        rw [hd] at h
        simp only [Except.error.injEq] at h
        exact Or.inr (Or.inr h.symm)
      | some pt => rw [hd] at h; simp at h
    · simp only [Except.error.injEq] at h
      exact Or.inr (Or.inl h.symm)
    · simp only [Except.error.injEq] at h
      exact Or.inr (Or.inl h.symm)

/-- C9: implicit output-size invariant — for a 32-byte salt, the
Base64-decoded blob produced by encrypt has length exactly
`32 + 16 * (n / 16 + 1)` where `n` is the UTF-8 plaintext length; the
ciphertext portion is a positive multiple of 16 bytes, so decrypting an
encrypt-produced blob (with any password) can never hit the
ciphertext-length failure of the cipher call. -/
theorem encrypt_blob_length
    (kdf : List Nat → List Nat → List Nat)
    (aesE aesD : List Nat → List Nat → List Nat → List Nat)
    (hlen : ∀ k iv m, (aesE k iv m).length = m.length)
    (hbyte : ∀ k iv m, (∀ b ∈ m, b < 256) → ∀ b ∈ aesE k iv m, b < 256)
    (rand plaintext password salt blob saltUsed : List Nat)
    (hsaltb : ∀ b ∈ salt, b < 256)
    (henc : encrypt_paprika_data kdf aesE rand plaintext password (some salt) =
      .ok (blob, saltUsed)) :
    ∃ plaintext_bytes decoded,
      utf8Encode plaintext = some plaintext_bytes ∧
      b64decode blob = some decoded ∧
      decoded.length = 32 + 16 * (plaintext_bytes.length / 16 + 1) ∧
      (decoded.drop 32).length % 16 = 0 ∧
      0 < (decoded.drop 32).length ∧
      ∀ password2, decrypt_inner kdf aesD blob password2 ≠
        .error ⟨.valueError, cbcLenMsg⟩ := by
  unfold encrypt_paprika_data at henc
  dsimp only [] at henc
  by_cases h32 : salt.length = 32
  swap
  · rw [if_neg h32] at henc; simp at henc
  rw [if_pos h32] at henc
  obtain ⟨hsu, pw_bytes, plaintext_bytes, hpw, hpt, hblob⟩ := encrypt_body_ok_elim henc
  subst hblob
  have hptb : ∀ b ∈ plaintext_bytes, b < 256 := utf8Encode_lt256 hpt
  have hctb : ∀ b ∈ aesE ((kdf pw_bytes salt).take 32) (((kdf pw_bytes salt).drop 32).take 16)
      (pkcs7Pad plaintext_bytes), b < 256 :=
    hbyte _ _ _ (pkcs7Pad_lt256 hptb)
  have hallb : ∀ b ∈ salt ++ aesE ((kdf pw_bytes salt).take 32)
      (((kdf pw_bytes salt).drop 32).take 16) (pkcs7Pad plaintext_bytes), b < 256 := by
    intro b hb
    rcases List.mem_append.mp hb with hb | hb
    · exact hsaltb b hb
    · exact hctb b hb
  have hdec := b64decode_encode _ hallb
  have hdrop : ∀ tl : List Nat, (salt ++ tl).drop 32 = tl := by
    intro tl; rw [← h32]; exact List.drop_left _ _
  have hctlen : (aesE ((kdf pw_bytes salt).take 32) (((kdf pw_bytes salt).drop 32).take 16)
      (pkcs7Pad plaintext_bytes)).length =
      plaintext_bytes.length + (16 - plaintext_bytes.length % 16) := by
    rw [hlen, pkcs7Pad_length]
  refine ⟨plaintext_bytes, _, hpt, hdec, ?_, ?_, ?_, ?_⟩
  · simp only [List.length_append, h32, hctlen]
    omega
  · rw [hdrop, hctlen]; omega
  · rw [hdrop, hctlen]; omega
  · intro password2
    unfold decrypt_inner
    rw [hdec]
    dsimp only []
    cases hpw2 : utf8Encode password2 with
    | none => simp
    | some pw2 =>
      dsimp only []
      rw [if_pos (by rw [hdrop, hctlen]; omega)]
      cases hs : stripPadAndDecode (aesD ((kdf pw2 ((salt ++ aesE ((kdf pw_bytes salt).take 32)
          (((kdf pw_bytes salt).drop 32).take 16) (pkcs7Pad plaintext_bytes)).take 32)).take 32)
          (((kdf pw2 ((salt ++ aesE ((kdf pw_bytes salt).take 32)
          (((kdf pw_bytes salt).drop 32).take 16) (pkcs7Pad plaintext_bytes)).take 32)).drop
          32).take 16)
          ((salt ++ aesE ((kdf pw_bytes salt).take 32) (((kdf pw_bytes salt).drop 32).take 16)
          (pkcs7Pad plaintext_bytes)).drop 32)) with
      | ok r => simp
      | error e =>
        dsimp only []
        rcases stripPadAndDecode_error_cases hs with rfl | rfl | rfl
        · simp
        · intro hEq
          simp only [Except.error.injEq, PyExc.mk.injEq, true_and] at hEq
          exact absurd hEq (by decide)
        · simp

/-- Witness for C9: an encrypt-produced blob never triggers the
cipher-length failure in decrypt. -/
theorem encrypt_blob_length_witness :
    decrypt_inner wKdf wAes wBlob wPw ≠ .error ⟨.valueError, cbcLenMsg⟩ := by
  obtain ⟨pb, dec, h1, h2, h3, h4, h5, h6⟩ :=
    encrypt_blob_length wKdf wAes wAes (fun _ _ _ => rfl) (fun _ _ _ hm => hm)
      [] wPlain wPw wSalt wBlob wSalt
      (fun b hb => by
        have := List.eq_of_mem_replicate hb
        omega)
      (by rfl)
  exact h6 wPw

/-- Models the `json.loads(decrypted_data)` step (plus the logging lines in
the same `try` block) always raising — as the real `json.loads` does on the
non-JSON plaintext `"test data"`, the only value this stand-in is queried
at in the counterexample below. -/
def wJsonFail : List Nat → Bool := fun _ => false

/-- A second password for the signature field. -/
def wSigPw : List Nat := strCodes "test signature password"

/-- The blob encrypting `wPlain` under the signature password. -/
def wSigBlob : List Nat :=
  match encrypt_paprika_data wKdf wAes [] wPlain wSigPw (some wSalt) with
  | .ok (b, _) => b
  | .error _ => []

/-- C8 counterexample: both fields decrypt successfully and re-encrypting
each decrypted plaintext with its original salt reproduces the original
Base64 string exactly — yet `perform_round_trip_test` returns `false`,
because the decrypted data field fails the `json.loads` step that sits
inside the same `try` block as the decryption; so the result is not
equivalent to "both re-encrypted fields equal their originals". -/
theorem verifier_counterexample :
    perform_round_trip_test wKdf wAes wAes wJsonFail wBlob wSigBlob wPw wSigPw = false ∧
    decrypt_paprika_data wKdf wAes wBlob wPw = .ok (wPlain, wSalt) ∧
    decrypt_paprika_data wKdf wAes wSigBlob wSigPw = .ok (wPlain, wSalt) ∧
    encrypt_paprika_data wKdf wAes [] wPlain wPw (some wSalt) = .ok (wBlob, wSalt) ∧
    encrypt_paprika_data wKdf wAes [] wPlain wSigPw (some wSalt) = .ok (wSigBlob, wSalt) := by
  exact ⟨by rfl, by rfl, by rfl, by rfl, by rfl⟩

/-- C8 amended: the verifier is a total Boolean function (every codec error
becomes `false`, never a crash), and it returns `true` iff both fields
decrypt, the decrypted data field passes the `json.loads`/logging step,
both re-encryptions (with the original salts) succeed, and both
re-encrypted Base64 strings equal the originals exactly. -/
theorem verifier_amended
    (kdf : List Nat → List Nat → List Nat)
    (aesE aesD : List Nat → List Nat → List Nat → List Nat)
    (jsonLoadsOk : List Nat → Bool)
    (encrypted_data_original encrypted_signature_original
      purchase_data_key purchase_signature_key : List Nat) :
    perform_round_trip_test kdf aesE aesD jsonLoadsOk
        encrypted_data_original encrypted_signature_original
        purchase_data_key purchase_signature_key = true ↔
      ∃ decrypted_data data_salt decrypted_signature sig_salt re_d re_d_salt re_s re_s_salt,
        decrypt_paprika_data kdf aesD encrypted_data_original purchase_data_key =
          .ok (decrypted_data, data_salt) ∧
        jsonLoadsOk decrypted_data = true ∧
        decrypt_paprika_data kdf aesD encrypted_signature_original purchase_signature_key =
          .ok (decrypted_signature, sig_salt) ∧
        encrypt_paprika_data kdf aesE [] decrypted_data purchase_data_key (some data_salt) =
          .ok (re_d, re_d_salt) ∧
        encrypt_paprika_data kdf aesE [] decrypted_signature purchase_signature_key
          (some sig_salt) = .ok (re_s, re_s_salt) ∧
        encrypted_data_original = re_d ∧
        encrypted_signature_original = re_s := by
  unfold perform_round_trip_test
  constructor
  · intro h
    cases h1 : decrypt_paprika_data kdf aesD encrypted_data_original purchase_data_key with
    | error e => rw [h1] at h; cases h
    | ok r1 =>
      obtain ⟨dd, ds⟩ := r1
      rw [h1] at h
      dsimp only [] at h
      by_cases hj : jsonLoadsOk dd = true
      swap
      · rw [if_neg hj] at h; cases h
      rw [if_pos hj] at h
      cases h3 : decrypt_paprika_data kdf aesD encrypted_signature_original
          purchase_signature_key with
      | error e => rw [h3] at h; cases h
      | ok r3 =>
        obtain ⟨dsig, ssalt⟩ := r3
        rw [h3] at h
        dsimp only [] at h
        cases h4 : encrypt_paprika_data kdf aesE [] dd purchase_data_key (some ds) with
        | error e => rw [h4] at h; cases h
        | ok r4 =>
          obtain ⟨rd, rds⟩ := r4
          rw [h4] at h
          dsimp only [] at h
          cases h5 : encrypt_paprika_data kdf aesE [] dsig purchase_signature_key
              (some ssalt) with
          | error e => rw [h5] at h; cases h
          | ok r5 =>
            obtain ⟨rs, rss⟩ := r5
            rw [h5] at h
            dsimp only [] at h
            rw [Bool.and_eq_true, beq_iff_eq, beq_iff_eq] at h
            exact ⟨dd, ds, dsig, ssalt, rd, rds, rs, rss, rfl, hj, rfl, h4, h5, h.1, h.2⟩
  · rintro ⟨dd, ds, dsig, ssalt, rd, rds, rs, rss, h1, hj, h3, h4, h5, rfl, rfl⟩
    rw [h1]
    dsimp only []
    rw [if_pos hj, h3]
    dsimp only []
    rw [h4]
    dsimp only []
    rw [h5]
    dsimp only []
    rw [Bool.and_eq_true, beq_iff_eq, beq_iff_eq]
    exact ⟨rfl, rfl⟩

/-- The valid-JSON plaintext used in the positive witness. -/
def wDataJson : List Nat := strCodes "\x7b\x7d"

/-- Models `json.loads` (and the logging lines) succeeding exactly on the
JSON document of the witness — as the real `json.loads` does on the only
value this stand-in is queried at. -/
def wJsonOk : List Nat → Bool := fun d => d == wDataJson

/-- The blob encrypting the JSON plaintext under the data password. -/
def wJsonBlob : List Nat :=
  match encrypt_paprika_data wKdf wAes [] wDataJson wPw (some wSalt) with
  | .ok (b, _) => b
  | .error _ => []

/-- Witness for the amended claim of C8: on genuine matching fields passing the
JSON step, the verifier returns `true`. -/
theorem verifier_amended_witness :
    perform_round_trip_test wKdf wAes wAes wJsonOk wJsonBlob wSigBlob wPw wSigPw = true := by
  exact (verifier_amended wKdf wAes wAes wJsonOk wJsonBlob wSigBlob wPw wSigPw).mpr
    ⟨wDataJson, wSalt, wPlain, wSalt, wJsonBlob, wSalt, wSigBlob, wSalt,
      by rfl, by rfl, by rfl, by rfl, by rfl, by rfl, by rfl⟩
